import Mathlib

/-
Verification of the DNS performance tester (src/main.go) against its
natural-language specification.

The development is a shallow embedding of the program:
  * the pure parts (query executor control flow, statistics computation,
    configuration validation) are Lean functions translated line by line
    from main.go;
  * the concurrent engine (worker pool, producer, aggregator, coordinator,
    main.go lines 77-91 and 147-211) is a labelled transition system over an
    explicit state, one transition per atomic action of a goroutine, with
    Go channel/select/WaitGroup semantics spelled out in the guards.
Machine integers (int64 counters, time.Duration) are modelled as unbounded
Int: no counter in the program can approach 2^63 within the scope of any
claim, and the claims do not concern overflow.
-/

set_option maxRecDepth 4000

namespace DNSPerf

/-! ## Query executor (src/main.go lines 20-75) -/

/-- `QueryResult` (main.go lines 20-23): per-attempt duration
(`time.Duration`, int64 nanoseconds) and success flag. -/
structure QueryResult where
  duration : Int
  success : Bool
deriving DecidableEq

/-- The DNS question name constructed at main.go line 40:
`dnsmessage.MustNewName(domain + ".")` — the trailing dot is appended
unconditionally to the configured domain. -/
def questionName (domain : String) : String := domain ++ "."

/-- Validity predicate of `dnsmessage.NewName` (external collaborator
golang.org/x/net/dns/dnsmessage): `NewName` returns an error if and only if
the name is longer than 255 bytes (the `Name.Data` array is `[255]byte`).
`MustNewName` panics on that error. -/
def nameFits (s : String) : Bool := s.utf8ByteSize ≤ 255

/-- Outcome oracle for the external transport and codec collaborators used
by one `performDNSQuery` attempt: whether each fallible step succeeds, and
the `time.Since(start)` value observed at each possible exit point. -/
structure NetOutcomes where
  dialOk : Bool
  packOk : Bool
  writeOk : Bool
  readOk : Bool
  unpackOk : Bool
  dialElapsed : Int
  packElapsed : Int
  writeElapsed : Int
  readElapsed : Int
  unpackElapsed : Int
  okElapsed : Int
deriving DecidableEq

/-- A Go runtime panic escaping `performDNSQuery`. -/
inductive DNSPanic where
  | mustNewName
deriving DecidableEq

/-- `performDNSQuery` (main.go lines 25-75), translated branch by branch.
Each handled failure (connect, pack, send, read, unpack) logs and returns
`QueryResult{time.Since(start), false}`.  Between the dial and the pack the
code builds the question with `dnsmessage.MustNewName(domain + ".")`
(line 40), which panics — rather than returning an error — when the name
exceeds 255 bytes; that path is the `.error` branch. -/
def performDNSQuery (env : NetOutcomes) (dnsServer domain : String)
    (recordType : Nat) : Except DNSPanic QueryResult :=
  if env.dialOk = false then
    .ok ⟨env.dialElapsed, false⟩
  else if nameFits (questionName domain) = false then
    .error .mustNewName
  else if env.packOk = false then
    .ok ⟨env.packElapsed, false⟩
  else if env.writeOk = false then
    .ok ⟨env.writeElapsed, false⟩
  else if env.readOk = false then
    .ok ⟨env.readElapsed, false⟩
  else if env.unpackOk = false then
    .ok ⟨env.unpackElapsed, false⟩
  else
    .ok ⟨env.okElapsed, true⟩

/-! ## Final statistics (src/main.go lines 213-218) -/

/-- Go integer division: truncates toward zero, and a zero divisor is a
runtime panic (modelled as `none`). -/
def goIntDiv (a b : Int) : Option Int :=
  if b = 0 then none else some (Int.tdiv a b)

/-- A Go float64 value as far as the statistics computation observes it:
a finite value, an infinity, or NaN.  Floating-point division never
faults. -/
inductive GoFloat where
  | val (q : ℚ)
  | posInf
  | negInf
  | nan
deriving DecidableEq

/-- IEEE-754 float64 division with a (positive-zero) denominator:
`x/0` is `±Inf` for nonzero `x` and `NaN` for `0/0`; otherwise exact
rational division stands in for the rounded quotient (the claims concern
faulting, not rounding). -/
def goFloatDiv (a b : ℚ) : GoFloat :=
  if b = 0 then
    if a = 0 then .nan else if 0 < a then .posInf else .negInf
  else .val (a / b)

/-- Multiplication of a float by a positive finite literal (used only for
the `* 100` in the success-rate computation). -/
def goFloatMulPos (x : GoFloat) (k : ℚ) : GoFloat :=
  match x with
  | .val q => .val (q * k)
  | .posInf => .posInf
  | .negInf => .negInf
  | .nan => .nan

/-- The printed aggregate statistics. -/
structure RunReport where
  avgDurationNs : Int
  qps : GoFloat
  successRate : GoFloat
deriving DecidableEq

/-- main.go lines 216-218:
`avgDuration := totalDuration / time.Duration(finalQueryCount)` (int64
division — panics when `finalQueryCount = 0`, hence the `Option`),
`qps := float64(finalQueryCount) / elapsed.Seconds()`,
`successRate := float64(finalSuccessCount) / float64(finalQueryCount) * 100`. -/
def computeStatistics (totalDuration finalQueryCount finalSuccessCount
    elapsedNs : Int) : Option RunReport :=
  match goIntDiv totalDuration finalQueryCount with
  | none => none
  | some avg =>
      some { avgDurationNs := avg
             qps := goFloatDiv (finalQueryCount : ℚ) ((elapsedNs : ℚ) / 1000000000)
             successRate :=
               goFloatMulPos (goFloatDiv (finalSuccessCount : ℚ) (finalQueryCount : ℚ)) 100 }

/-! ## Configuration validation (src/main.go lines 93-135) -/

/-- `strings.Contains(s, ":")`: the one-character substring ":" occurs in
`s` iff the character occurs in `s`. -/
def containsColon (s : String) : Bool := s.data.contains ':'

/-- main.go lines 107-109: append the default port when the destination
address contains no ":". -/
def normalizeDNSServer (s : String) : String :=
  if containsColon s then s else s ++ ":53"

/-- The `recordTypeMap` literal of main.go lines 120-129, as a lookup
function (extensionally equal to the Go map). -/
def recordTypeMap (s : String) : Option Nat :=
  if s = "A" then some 1
  else if s = "NS" then some 2
  else if s = "CNAME" then some 5
  else if s = "SOA" then some 6
  else if s = "PTR" then some 12
  else if s = "MX" then some 15
  else if s = "TXT" then some 16
  else if s = "AAAA" then some 28
  else none

/-- main.go lines 102-135, the validation performed before the engine
starts: empty domain exits with code 1 (line 104); the destination address
is normalized (lines 107-109); an unknown record-type mnemonic exits with
code 1 (line 134).  `.error` carries the process exit code; on `.ok` the
run proceeds to start workers and issue queries.  (The log-file branch,
lines 111-118, touches only the logging destination and is omitted.) -/
def validateConfig (domain recordTypeStr dnsServer : String) :
    Except Nat (String × Nat × String) :=
  if domain = "" then .error 1
  else
    let server := normalizeDNSServer dnsServer
    match recordTypeMap recordTypeStr with
    | none => .error 1
    | some code => .ok (domain, code, server)

/-! ## The concurrent engine (src/main.go lines 77-91 and 147-211)

One transition per atomic goroutine action.  Channel semantics follow Go:
`jobs` is unbuffered (a send completes only by rendezvous with a receive),
`results` is buffered with capacity `concurrency` (line 151), a receive
from a closed channel that still holds buffered items drains them first,
a send on a closed channel is a runtime fault, and a `select` takes its
`default` branch only when no other case is ready while among several
ready cases the choice is nondeterministic. -/

/-- The configuration of the engine: worker count `concurrency` and the query
limit `queries` (`-1` means continuous, main.go line 96). -/
structure RunConfig where
  concurrency : Nat
  queries : Int
deriving DecidableEq

/-- Program counter of the producer goroutine (main.go lines 170-188):
at the loop head (about to evaluate the loop condition and the select);
committed to the blocking send `jobs <- 1` (the default branch of the select);
between the completed send and `atomic.AddInt64(&queryCount, 1)`;
or returned. -/
inductive ProducerPC where
  | loopHead
  | sending
  | incCount
  | exited
deriving DecidableEq

/-- Program counter of one worker goroutine (main.go lines 77-91):
blocked in the select (lines 80-86); running `performDNSQuery` (line 87);
about to send its result (line 88, with the result it will send); or
returned (`wg.Done()` executed). -/
inductive WorkerPC where
  | waiting
  | querying
  | pushing (r : QueryResult)
  | exited
deriving DecidableEq

/-- Program counter of the aggregator goroutine (main.go lines 193-201). -/
inductive AggPC where
  | reading
  | finished
deriving DecidableEq

/-- Program counter of the coordinator (the main goroutine, lines
203-218): in the completion/interrupt select (lines 203-209); at the
final drain `<-done` (line 211); or reading the final counters (lines
213-214, the Reporting state). -/
inductive MainPC where
  | selecting
  | draining
  | reporting
deriving DecidableEq

/-- The engine state.  `queryCount`, `successCount`, `totalDuration` are
the shared counters of the program; `tokensSent`, `resultsPushed`,
`resultsAggregated` are ghost counters of completed channel operations;
`fault` records a send on the closed result stream (a Go runtime panic). -/
structure EngineState where
  producer : ProducerPC
  workers : List WorkerPC
  agg : AggPC
  main : MainPC
  cancelled : Bool
  interrupted : Bool
  sigPending : Bool
  jobsClosed : Bool
  resultsClosed : Bool
  resultsBuf : List QueryResult
  queryCount : Int
  successCount : Int
  totalDuration : Int
  tokensSent : Nat
  resultsPushed : Nat
  resultsAggregated : Nat
  fault : Bool
deriving DecidableEq

/-- The loop condition of the producer (main.go line 171):
`*queries == -1 || atomic.LoadInt64(&queryCount) < int64(*queries)`. -/
def producerContinue (c : RunConfig) (qc : Int) : Bool :=
  c.queries == -1 || decide (qc < c.queries)

/-- A worker is between taking a token and completing its result push. -/
def isBusy : WorkerPC → Bool
  | .querying => true
  | .pushing _ => true
  | _ => false

/-- Number of workers holding a consumed-but-not-yet-reported token. -/
def countBusy (ws : List WorkerPC) : Nat := (ws.filter isBusy).length

/-- The state after main.go lines 147-201 have spawned everything:
`concurrency` workers blocked in their select, producer at its loop head,
aggregator reading, coordinator in its select, all counters zero. -/
def initState (c : RunConfig) : EngineState where
  producer := .loopHead
  workers := List.replicate c.concurrency .waiting
  agg := .reading
  main := .selecting
  cancelled := false
  interrupted := false
  sigPending := false
  jobsClosed := false
  resultsClosed := false
  resultsBuf := []
  queryCount := 0
  successCount := 0
  totalDuration := 0
  tokensSent := 0
  resultsPushed := 0
  resultsAggregated := 0
  fault := false

/-- One atomic action of one goroutine (or of the environment: interrupt
delivery).  Guards are the Go readiness conditions at the corresponding
source line. -/
inductive Step (c : RunConfig) : EngineState → EngineState → Prop where
  /-- Line 171-175: loop condition true and `ctx.Done()` not ready, so the
  select commits to its `default` branch, i.e. to the blocking send
  `jobs <- 1` (line 176).  Note the send itself is *not* raced against
  `ctx.Done()`. -/
  | prodSelectDefault (s : EngineState) :
      s.producer = ProducerPC.loopHead →
      producerContinue c s.queryCount = true →
      s.cancelled = false →
      Step c s { s with producer := ProducerPC.sending }
  /-- Line 173-174: loop condition true but the context is cancelled: the
  `<-ctx.Done()` case is ready, the select takes it (default is only taken
  when nothing is ready), and the producer returns without closing
  `jobs`. -/
  | prodSelectDone (s : EngineState) :
      s.producer = ProducerPC.loopHead →
      producerContinue c s.queryCount = true →
      s.cancelled = true →
      Step c s { s with producer := ProducerPC.exited }
  /-- Lines 171 and 187: loop condition false; `close(jobs)` and return. -/
  | prodClose (s : EngineState) :
      s.producer = ProducerPC.loopHead →
      producerContinue c s.queryCount = false →
      Step c s { s with producer := ProducerPC.exited, jobsClosed := true }
  /-- The rendezvous on the unbuffered `jobs` channel: the pending send
  (line 176) completes together with the receive of worker `i` (line 83); the
  worker proceeds to `performDNSQuery` (line 87). -/
  | sendRecv (s : EngineState) (i : Nat) :
      s.producer = ProducerPC.sending →
      s.workers.get? i = some WorkerPC.waiting →
      Step c s { s with producer := ProducerPC.incCount,
                        workers := s.workers.set i WorkerPC.querying,
                        tokensSent := s.tokensSent + 1 }
  /-- Line 177: `atomic.AddInt64(&queryCount, 1)` after the completed
  send, then back to the loop head (the progress print, lines 178-184,
  touches no shared state). -/
  | prodInc (s : EngineState) :
      s.producer = ProducerPC.incCount →
      Step c s { s with producer := ProducerPC.loopHead,
                        queryCount := s.queryCount + 1 }
  /-- Lines 81-82: the select of worker `i` observes `<-ctx.Done()` and the
  loop returns (`defer wg.Done()` runs). -/
  | workerCancel (s : EngineState) (i : Nat) :
      s.cancelled = true →
      s.workers.get? i = some WorkerPC.waiting →
      Step c s { s with workers := s.workers.set i WorkerPC.exited }
  /-- Lines 83-86: worker `i` receives from the closed `jobs` channel
  (`ok = false`) and the loop returns. -/
  | workerClosed (s : EngineState) (i : Nat) :
      s.jobsClosed = true →
      s.workers.get? i = some WorkerPC.waiting →
      Step c s { s with workers := s.workers.set i WorkerPC.exited }
  /-- Line 87: the query attempt completes with some externally determined
  outcome `r`. -/
  | workerQuery (s : EngineState) (i : Nat) (r : QueryResult) :
      s.workers.get? i = some WorkerPC.querying →
      Step c s { s with workers := s.workers.set i (WorkerPC.pushing r) }
  /-- Line 88: `results <- result` completes — the stream is open and the
  buffer (capacity `concurrency`, line 151) has room. -/
  | workerPush (s : EngineState) (i : Nat) (r : QueryResult) :
      s.workers.get? i = some (WorkerPC.pushing r) →
      s.resultsClosed = false →
      s.resultsBuf.length < c.concurrency →
      Step c s { s with workers := s.workers.set i WorkerPC.waiting,
                        resultsBuf := s.resultsBuf ++ [r],
                        resultsPushed := s.resultsPushed + 1 }
  /-- Line 88 against a closed stream: a send on a closed channel is a Go
  runtime panic. -/
  | workerPushClosed (s : EngineState) (i : Nat) (r : QueryResult) :
      s.workers.get? i = some (WorkerPC.pushing r) →
      s.resultsClosed = true →
      Step c s { s with fault := true }
  /-- Lines 159-162: `wg.Wait()` returns once every worker has executed
  `wg.Done()`; then `close(results)`. -/
  | closeResults (s : EngineState) :
      (∀ w ∈ s.workers, w = WorkerPC.exited) →
      s.resultsClosed = false →
      Step c s { s with resultsClosed := true }
  /-- Lines 194-198: the aggregator takes the next buffered result, adds
  its duration and counts its success. -/
  | aggTake (s : EngineState) (r : QueryResult) (rest : List QueryResult) :
      s.agg = AggPC.reading →
      s.resultsBuf = r :: rest →
      Step c s { s with resultsBuf := rest,
                        totalDuration := s.totalDuration + r.duration,
                        successCount := s.successCount + (if r.success then 1 else 0),
                        resultsAggregated := s.resultsAggregated + 1 }
  /-- Lines 194 and 200: the `range` over `results` ends — the stream is
  closed and drained — and the aggregator closes `done`. -/
  | aggFinish (s : EngineState) :
      s.agg = AggPC.reading →
      s.resultsClosed = true →
      s.resultsBuf = [] →
      Step c s { s with agg := AggPC.finished }
  /-- Delivery of the external interrupt signal into the buffered
  `sigChan` (lines 167-168); at most one delivery is modelled. -/
  | interrupt (s : EngineState) :
      s.interrupted = false →
      Step c s { s with interrupted := true, sigPending := true }
  /-- Lines 204-206: the select of the coordinator takes the interrupt case and
  calls `cancel()`, then falls through to the final drain (line 211). -/
  | mainSig (s : EngineState) :
      s.main = MainPC.selecting →
      s.sigPending = true →
      Step c s { s with main := MainPC.draining, sigPending := false,
                        cancelled := true }
  /-- Lines 207-208: the select of the coordinator takes the completion case
  (`done` closed). -/
  | mainDone (s : EngineState) :
      s.main = MainPC.selecting →
      s.agg = AggPC.finished →
      Step c s { s with main := MainPC.draining }
  /-- Lines 211-214: `<-done` returns (done is closed) and the coordinator
  reads the final counters — the Reporting state. -/
  | mainReport (s : EngineState) :
      s.main = MainPC.draining →
      s.agg = AggPC.finished →
      Step c s { s with main := MainPC.reporting }

/-- Multi-step execution between two states. -/
def Reaches (c : RunConfig) : EngineState → EngineState → Prop :=
  Relation.ReflTransGen (Step c)

/-- States reachable in some execution of a run with configuration `c`. -/
def Reachable (c : RunConfig) (s : EngineState) : Prop :=
  Reaches c (initState c) s

/-- The inductive invariant of the engine.  `exitedJobs` is the clause
family specific to runs in which no interrupt was delivered (the flags
`interrupted`, `cancelled`, `jobsClosed`, `resultsClosed` are monotone, so
conditioning on the flag of the current state is sound). -/
structure Inv (c : RunConfig) (s : EngineState) : Prop where
  workersLen : s.workers.length = c.concurrency
  closedExited : s.resultsClosed = true → ∀ w ∈ s.workers, w = WorkerPC.exited
  noFault : s.fault = false
  aggDone : s.agg = AggPC.finished → s.resultsClosed = true ∧ s.resultsBuf = []
  pushedEq : s.resultsPushed = s.resultsAggregated + s.resultsBuf.length
  sentEq : s.tokensSent = s.resultsPushed + countBusy s.workers
  succNonneg : 0 ≤ s.successCount
  succLe : s.successCount ≤ (s.resultsAggregated : Int)
  sentCount : (s.tokensSent : Int)
      = s.queryCount + (if s.producer = ProducerPC.incCount then 1 else 0)
  cancInt : s.cancelled = true → s.interrupted = true
  sigInt : s.sigPending = true → s.interrupted = true
  jobsProd : s.jobsClosed = true →
      s.producer = ProducerPC.exited ∧ producerContinue c s.queryCount = false
  prodCont : (s.producer = ProducerPC.sending ∨ s.producer = ProducerPC.incCount) →
      producerContinue c s.queryCount = true
  qcNonneg : 0 ≤ s.queryCount
  qcLe : 0 ≤ c.queries → s.queryCount ≤ c.queries
  incConc : s.producer = ProducerPC.incCount → 0 < c.concurrency
  repAgg : s.main = MainPC.reporting → s.agg = AggPC.finished
  exitedJobs : s.interrupted = false →
      ∀ w ∈ s.workers, w = WorkerPC.exited → s.jobsClosed = true

/-- A reachable state of the run `queries = -1, concurrency = 1` in which
the producer has committed to `jobs <- 1`, the interrupt has been served
(`cancel()` ran) and the sole worker has exited through `<-ctx.Done()`:
nobody will ever receive the pending token. -/
def c3StuckState : EngineState where
  producer := .sending
  workers := [.exited]
  agg := .reading
  main := .draining
  cancelled := true
  interrupted := true
  sigPending := false
  jobsClosed := false
  resultsClosed := false
  resultsBuf := []
  queryCount := 0
  successCount := 0
  totalDuration := 0
  tokensSent := 0
  resultsPushed := 0
  resultsAggregated := 0
  fault := false

/-- A reachable Reporting state of the run `queries = -1, concurrency = 1`
in which one query succeeded and was aggregated while the producer is
still between the completed send (line 176) and
`atomic.AddInt64(&queryCount, 1)` (line 177): the final counters read
`finalSuccessCount = 1`, `finalQueryCount = 0`. -/
def c6CexState : EngineState where
  producer := .incCount
  workers := [.exited]
  agg := .finished
  main := .reporting
  cancelled := true
  interrupted := true
  sigPending := false
  jobsClosed := false
  resultsClosed := true
  resultsBuf := []
  queryCount := 0
  successCount := 1
  totalDuration := 5
  tokensSent := 1
  resultsPushed := 1
  resultsAggregated := 1
  fault := false

/-- The Reporting state of a completed run with `queries = 0,
concurrency = 1` (used to exhibit a full uninterrupted run). -/
def c4RepState : EngineState where
  producer := .exited
  workers := [.exited]
  agg := .finished
  main := .reporting
  cancelled := false
  interrupted := false
  sigPending := false
  jobsClosed := true
  resultsClosed := true
  resultsBuf := []
  queryCount := 0
  successCount := 0
  totalDuration := 0
  tokensSent := 0
  resultsPushed := 0
  resultsAggregated := 0
  fault := false

/-! ## Helper lemmas -/

theorem countBusy_set (l : List WorkerPC) (i : Nat) (a b : WorkerPC)
    (h : l.get? i = some a) :
    countBusy (l.set i b) + (if isBusy a then 1 else 0)
      = countBusy l + (if isBusy b then 1 else 0) := by
  induction l generalizing i with
  | nil => exact absurd h (by simp)
  | cons x xs ih =>
    cases i with
    | zero =>
      have hx : x = a := by injection h
      subst hx
      show countBusy (b :: xs) + _ = countBusy (x :: xs) + _
      simp only [countBusy, List.filter_cons]
      cases hx2 : isBusy x <;> cases hb : isBusy b <;> simp [hx2, hb] <;> omega
    | succ n =>
      have h2 := ih n h
      show countBusy (x :: xs.set n b) + _ = countBusy (x :: xs) + _
      simp only [countBusy, List.filter_cons] at h2 ⊢
      cases hx2 : isBusy x <;> simp [hx2] <;> omega

theorem countBusy_zero (l : List WorkerPC)
    (h : ∀ w ∈ l, isBusy w = false) : countBusy l = 0 := by
  have h2 : l.filter isBusy = [] :=
    List.filter_eq_nil_iff.mpr (fun a ha => by simp [h a ha])
  simp [countBusy, h2]

theorem countBusy_exited (l : List WorkerPC)
    (h : ∀ w ∈ l, w = WorkerPC.exited) : countBusy l = 0 :=
  countBusy_zero l (fun w hw => by simp [h w hw, isBusy])

/-! ## The inductive invariant holds initially and is preserved -/

theorem inv_init (c : RunConfig) : Inv c (initState c) where
  workersLen := by simp [initState]
  closedExited := by intro h; simp [initState] at h
  noFault := rfl
  aggDone := by intro h; simp [initState] at h
  pushedEq := rfl
  sentEq := by
    have h2 : countBusy (List.replicate c.concurrency WorkerPC.waiting) = 0 :=
      countBusy_zero _ (fun w hw => by simp [List.eq_of_mem_replicate hw, isBusy])
    simp [initState, h2]
  succNonneg := le_refl 0
  succLe := by simp [initState]
  sentCount := by simp [initState]
  cancInt := by intro h; simp [initState] at h
  sigInt := by intro h; simp [initState] at h
  jobsProd := by intro h; simp [initState] at h
  prodCont := by intro h; simp [initState] at h
  qcNonneg := le_refl 0
  qcLe := fun h => h
  incConc := by intro h; simp [initState] at h
  repAgg := by intro h; simp [initState] at h
  exitedJobs := by
    intro _ w hw hex
    rw [List.eq_of_mem_replicate hw] at hex
    simp at hex

theorem inv_step {c : RunConfig} {s t : EngineState}
    (inv : Inv c s) (st : Step c s t) : Inv c t := by
  cases st with
  | prodSelectDefault hp hc hx =>
    exact { inv with
      sentCount := by
        dsimp only
        have h := inv.sentCount
        rw [hp] at h
        simpa using h
      jobsProd := by
        dsimp only
        intro h
        have h2 := (inv.jobsProd h).1
        rw [hp] at h2
        simp at h2
      prodCont := fun _ => hc
      incConc := by dsimp only; intro h; simp at h }
  | prodSelectDone hp hc hx =>
    exact { inv with
      sentCount := by
        dsimp only
        have h := inv.sentCount
        rw [hp] at h
        simpa using h
      jobsProd := fun h => ⟨rfl, (inv.jobsProd h).2⟩
      prodCont := by dsimp only; intro h; rcases h with h | h <;> simp at h
      incConc := by dsimp only; intro h; simp at h }
  | prodClose hp hc =>
    exact { inv with
      sentCount := by
        dsimp only
        have h := inv.sentCount
        rw [hp] at h
        simpa using h
      jobsProd := fun _ => ⟨rfl, hc⟩
      prodCont := by dsimp only; intro h; rcases h with h | h <;> simp at h
      incConc := by dsimp only; intro h; simp at h
      exitedJobs := fun _ _ _ _ => rfl }
  | sendRecv i hp hw =>
    exact { inv with
      workersLen := by dsimp only; simpa using inv.workersLen
      closedExited := by
        dsimp only
        intro hcl
        have h2 := inv.closedExited hcl _ (List.get?_mem hw)
        simp at h2
      sentEq := by
        dsimp only
        have h := countBusy_set s.workers i _ WorkerPC.querying hw
        simp [isBusy] at h
        have h2 := inv.sentEq
        omega
      sentCount := by
        dsimp only
        have h := inv.sentCount
        rw [hp] at h
        simp at h
        simp
        omega
      jobsProd := by
        dsimp only
        intro h
        have h2 := (inv.jobsProd h).1
        rw [hp] at h2
        simp at h2
      prodCont := fun _ => inv.prodCont (Or.inl hp)
      incConc := by
        intro _
        have h2 := (List.get?_eq_some.mp hw).1
        rw [inv.workersLen] at h2
        omega
      exitedJobs := by
        dsimp only
        intro hint w hwmem hex
        rcases List.mem_or_eq_of_mem_set hwmem with h | h
        · exact inv.exitedJobs hint w h hex
        · rw [h] at hex; simp at hex }
  | prodInc hp =>
    exact { inv with
      sentCount := by
        dsimp only
        have h := inv.sentCount
        rw [hp] at h
        simp at h
        simp
        omega
      jobsProd := by
        dsimp only
        intro h
        have h2 := (inv.jobsProd h).1
        rw [hp] at h2
        simp at h2
      prodCont := by dsimp only; intro h; rcases h with h | h <;> simp at h
      qcNonneg := by
        dsimp only
        have h := inv.qcNonneg
        omega
      qcLe := by
        dsimp only
        intro hL
        have h := inv.prodCont (Or.inr hp)
        simp [producerContinue] at h
        have hL2 := inv.qcLe hL
        rcases h with h | h <;> omega
      incConc := by dsimp only; intro h; simp at h }
  | workerCancel i hx hw =>
    exact { inv with
      workersLen := by dsimp only; simpa using inv.workersLen
      closedExited := by
        dsimp only
        intro hcl
        have h2 := inv.closedExited hcl _ (List.get?_mem hw)
        simp at h2
      sentEq := by
        dsimp only
        have h := countBusy_set s.workers i _ WorkerPC.exited hw
        simp [isBusy] at h
        have h2 := inv.sentEq
        omega
      exitedJobs := by
        dsimp only
        intro hint
        have h2 := inv.cancInt hx
        rw [hint] at h2
        simp at h2 }
  | workerClosed i hj hw =>
    exact { inv with
      workersLen := by dsimp only; simpa using inv.workersLen
      closedExited := by
        dsimp only
        intro hcl
        have h2 := inv.closedExited hcl _ (List.get?_mem hw)
        simp at h2
      sentEq := by
        dsimp only
        have h := countBusy_set s.workers i _ WorkerPC.exited hw
        simp [isBusy] at h
        have h2 := inv.sentEq
        omega
      exitedJobs := fun _ _ _ _ => hj }
  | workerQuery i r hw =>
    exact { inv with
      workersLen := by dsimp only; simpa using inv.workersLen
      closedExited := by
        dsimp only
        intro hcl
        have h2 := inv.closedExited hcl _ (List.get?_mem hw)
        simp at h2
      sentEq := by
        dsimp only
        have h := countBusy_set s.workers i _ (WorkerPC.pushing r) hw
        simp [isBusy] at h
        have h2 := inv.sentEq
        omega
      exitedJobs := by
        dsimp only
        intro hint w hwmem hex
        rcases List.mem_or_eq_of_mem_set hwmem with h | h
        · exact inv.exitedJobs hint w h hex
        · rw [h] at hex; simp at hex }
  | workerPush i r hw hcl hlen =>
    exact { inv with
      workersLen := by dsimp only; simpa using inv.workersLen
      closedExited := by
        dsimp only
        intro h
        rw [hcl] at h
        simp at h
      aggDone := by
        dsimp only
        intro h
        have h2 := (inv.aggDone h).1
        rw [hcl] at h2
        simp at h2
      pushedEq := by
        dsimp only
        have h := inv.pushedEq
        simp
        omega
      sentEq := by
        dsimp only
        have h := countBusy_set s.workers i _ WorkerPC.waiting hw
        simp [isBusy] at h
        have h2 := inv.sentEq
        omega
      exitedJobs := by
        dsimp only
        intro hint w hwmem hex
        rcases List.mem_or_eq_of_mem_set hwmem with h | h
        · exact inv.exitedJobs hint w h hex
        · rw [h] at hex; simp at hex }
  | workerPushClosed i r hw hcl =>
    have h2 := inv.closedExited hcl _ (List.get?_mem hw)
    simp at h2
  | closeResults hall hcl =>
    exact { inv with
      closedExited := fun _ => hall
      aggDone := fun h => ⟨rfl, (inv.aggDone h).2⟩ }
  | aggTake r rest ha hb =>
    exact { inv with
      aggDone := by
        dsimp only
        intro h
        rw [ha] at h
        simp at h
      pushedEq := by
        dsimp only
        have h := inv.pushedEq
        rw [hb] at h
        simp at h
        omega
      succNonneg := by
        dsimp only
        have h := inv.succNonneg
        cases hrs : r.success <;> simp <;> omega
      succLe := by
        dsimp only
        have h := inv.succLe
        cases hrs : r.success <;> simp <;> push_cast <;> omega }
  | aggFinish ha hcl hb =>
    exact { inv with
      aggDone := fun _ => ⟨hcl, hb⟩
      repAgg := fun _ => rfl }
  | interrupt hi =>
    exact { inv with
      cancInt := fun _ => rfl
      sigInt := fun _ => rfl
      exitedJobs := by dsimp only; intro h; simp at h }
  | mainSig hm hs =>
    exact { inv with
      cancInt := fun _ => inv.sigInt hs
      sigInt := by dsimp only; intro h; simp at h
      exitedJobs := by
        dsimp only
        intro hint
        have h2 := inv.sigInt hs
        rw [hint] at h2
        simp at h2
      repAgg := by dsimp only; intro h; simp at h }
  | mainDone hm ha =>
    exact { inv with
      repAgg := by dsimp only; intro h; simp at h }
  | mainReport hm ha =>
    exact { inv with
      repAgg := fun _ => ha }

theorem inv_reachable {c : RunConfig} {s : EngineState}
    (h : Reachable c s) : Inv c s := by
  unfold Reachable Reaches at h
  induction h with
  | refl => exact inv_init c
  | tail _ h2 ih => exact inv_step ih h2

/-! ## Claim C1 -/

/-- C1: the claim states that a run reaching Reporting with
`finalQueryCount = 0` must not fault in the average-duration / throughput /
success-rate computation.  The code violates this: for every accumulated
`totalDuration`, `finalSuccessCount` and elapsed time, the computation at
main.go line 216 divides the int64 `totalDuration` by
`time.Duration(finalQueryCount) = 0`, a Go runtime panic (modelled as
`none`). -/
theorem c1_zero_count_division_faults (td sc e : Int) :
    computeStatistics td 0 sc e = none := by
  simp [computeStatistics, goIntDiv]

/-! ## Claim C2 -/

/-- C2: the claim states that `performDNSQuery` never raises an error or
panic and returns a `QueryResult` on every path.  The code violates this:
with the transport collaborators all succeeding, a domain of 255 bytes
(so that `domain + "."` exceeds the 255-byte limit of `dnsmessage.NewName`)
makes `performDNSQuery` panic inside `MustNewName` at main.go line 40
instead of returning `success = false`. -/
theorem c2_executor_panics_on_overlong_domain :
    performDNSQuery ⟨true, true, true, true, true, 0, 0, 0, 0, 0, 0⟩
      "8.8.8.8:53" (String.mk (List.replicate 255 'a')) 1
      = Except.error DNSPanic.mustNewName := by
  rfl

/-! ## Claim C7 -/

/-- C7: the record-type mnemonic-to-code mapping is exactly the closed
table A=1, NS=2, CNAME=5, SOA=6, PTR=12, MX=15, TXT=16, AAAA=28, and any
mnemonic outside the table makes validation exit with the non-zero code 1
before the engine (and hence any query) is started. -/
theorem c7_record_type_table :
    (recordTypeMap "A" = some 1 ∧ recordTypeMap "NS" = some 2 ∧
     recordTypeMap "CNAME" = some 5 ∧ recordTypeMap "SOA" = some 6 ∧
     recordTypeMap "PTR" = some 12 ∧ recordTypeMap "MX" = some 15 ∧
     recordTypeMap "TXT" = some 16 ∧ recordTypeMap "AAAA" = some 28) ∧
    (∀ s code, recordTypeMap s = some code →
      (s, code) ∈ [("A", 1), ("NS", 2), ("CNAME", 5), ("SOA", 6),
                   ("PTR", 12), ("MX", 15), ("TXT", 16), ("AAAA", 28)]) ∧
    (∀ domain s dns, domain ≠ "" → recordTypeMap s = none →
      validateConfig domain s dns = Except.error 1 ∧ (1 : Nat) ≠ 0) := by
  refine ⟨by decide, ?_, ?_⟩
  · intro s code h
    unfold recordTypeMap at h
    split_ifs at h with h1 h2 h3 h4 h5 h6 h7 h8 <;> simp_all
  · intro domain s dns hd hn
    exact ⟨by simp [validateConfig, hd, hn], by decide⟩

/-- Witness for C7 at the unknown mnemonic "ZZZ". -/
theorem c7_record_type_table_witness :
    validateConfig "example.com" "ZZZ" "8.8.8.8" = Except.error 1 :=
  (c7_record_type_table.2.2 "example.com" "ZZZ" "8.8.8.8" (by decide) (by decide)).1

/-! ## Claim C8 -/

/-- C8: for every destination-address string, if it contains no ":" (the test of the code for an absent port, main.go line 107) then ":53" is appended,
and otherwise the string is used unchanged. -/
theorem c8_default_port (s : String) :
    (containsColon s = false → normalizeDNSServer s = s ++ ":53") ∧
    (containsColon s = true → normalizeDNSServer s = s) := by
  constructor <;> intro h <;> simp [normalizeDNSServer, h]

/-- Witness for C8 at "8.8.8.8" (no colon) and "1.1.1.1:53" (colon). -/
theorem c8_default_port_witness :
    normalizeDNSServer "8.8.8.8" = "8.8.8.8" ++ ":53" ∧
    normalizeDNSServer "1.1.1.1:53" = "1.1.1.1:53" :=
  ⟨(c8_default_port "8.8.8.8").1 (by decide),
   (c8_default_port "1.1.1.1:53").2 (by decide)⟩

/-! ## Claim C9 -/

/-- C9: the question name sent by the Query Executor is always the
configured domain with a trailing dot appended unconditionally, and is
never the configured domain verbatim. -/
theorem c9_question_name_fqdn (domain : String) :
    questionName domain = domain ++ "." ∧ questionName domain ≠ domain := by
  refine ⟨rfl, ?_⟩
  intro h
  have h2 := congrArg String.length h
  simp only [questionName] at h2
  rw [String.length_append] at h2
  have h3 : (".").length = 1 := rfl
  rw [h3] at h2
  omega

/-- Witness for C9 at the domain "example.com". -/
theorem c9_question_name_fqdn_witness :
    questionName "example.com" = "example.com" ++ "." ∧
    questionName "example.com" ≠ "example.com" :=
  c9_question_name_fqdn "example.com"

/-! ## Claim C5 -/

/-- C5: in every execution, whenever the result stream is closed every
worker loop has already exited (the `wg.Wait()` barrier precedes
`close(results)`), and consequently no send on the closed result stream
(a runtime fault) ever occurs. -/
theorem c5_barrier_before_close (c : RunConfig) (s : EngineState)
    (h : Reachable c s) :
    (s.resultsClosed = true → ∀ w ∈ s.workers, w = WorkerPC.exited) ∧
    s.fault = false :=
  ⟨(inv_reachable h).closedExited, (inv_reachable h).noFault⟩

/-- Witness for C5 at the initial state of a 3-worker run. -/
theorem c5_barrier_before_close_witness :
    (initState ⟨3, 5⟩).fault = false :=
  (c5_barrier_before_close ⟨3, 5⟩ (initState ⟨3, 5⟩)
    Relation.ReflTransGen.refl).2

/-! ## Claim C6 -/

/-- Helper for the C6 counterexample: the state `c6CexState` is reachable
in the run `queries = -1, concurrency = 1`. -/
theorem c6_cex_reachable : Reachable ⟨1, -1⟩ c6CexState := by
  have h0 : Reaches ⟨1, -1⟩ (initState ⟨1, -1⟩) (initState ⟨1, -1⟩) :=
    Relation.ReflTransGen.refl
  have h1 := Relation.ReflTransGen.tail h0
    (Step.prodSelectDefault _ rfl (by decide) rfl)
  have h2 := Relation.ReflTransGen.tail h1
    (Step.sendRecv _ 0 rfl (by decide))
  have h3 := Relation.ReflTransGen.tail h2
    (Step.workerQuery _ 0 ⟨5, true⟩ (by decide))
  have h4 := Relation.ReflTransGen.tail h3
    (Step.workerPush _ 0 ⟨5, true⟩ (by decide) rfl (by decide))
  have h5 := Relation.ReflTransGen.tail h4
    (Step.aggTake _ ⟨5, true⟩ [] rfl rfl)
  have h6 := Relation.ReflTransGen.tail h5 (Step.interrupt _ rfl)
  have h7 := Relation.ReflTransGen.tail h6 (Step.mainSig _ rfl rfl)
  have h8 := Relation.ReflTransGen.tail h7
    (Step.workerCancel _ 0 rfl (by decide))
  have h9 := Relation.ReflTransGen.tail h8
    (Step.closeResults _ (by decide) rfl)
  have h10 := Relation.ReflTransGen.tail h9 (Step.aggFinish _ rfl rfl rfl)
  have h11 := Relation.ReflTransGen.tail h10 (Step.mainReport _ rfl rfl)
  exact h11

/-- C6 counterexample: a reachable Reporting state of an interrupted run in
which the final counters read `finalSuccessCount = 1` but
`finalQueryCount = 0` — the producer was interrupted between the completed
send (line 176) and `atomic.AddInt64(&queryCount, 1)` (line 177) — so the
claimed final-report inequality `finalSuccessCount ≤ finalQueryCount` is
false. -/
theorem c6_final_report_violation :
    Reachable ⟨1, -1⟩ c6CexState ∧ c6CexState.main = MainPC.reporting ∧
    c6CexState.successCount = 1 ∧ c6CexState.queryCount = 0 ∧
    ¬(c6CexState.successCount ≤ c6CexState.queryCount) :=
  ⟨c6_cex_reachable, rfl, rfl, rfl, by decide⟩

/-- C6 (amended): at every point of every run, the aggregated success
count never exceeds the number of tokens ever produced (completed sends of
a work token); the total count of results ever aggregated never exceeds
the number of tokens ever produced; and in every run in which no interrupt
occurs the Reporting state satisfies
`finalSuccessCount ≤ finalQueryCount`. -/
theorem c6_success_bounded (c : RunConfig) (s : EngineState)
    (h : Reachable c s) :
    s.successCount ≤ (s.tokensSent : Int) ∧
    s.resultsAggregated ≤ s.tokensSent ∧
    (s.interrupted = false → s.main = MainPC.reporting →
      s.successCount ≤ s.queryCount) := by
  have inv := inv_reachable h
  refine ⟨?_, ?_, ?_⟩
  · have h1 := inv.succLe
    have h2 := inv.pushedEq
    have h3 := inv.sentEq
    omega
  · have h2 := inv.pushedEq
    have h3 := inv.sentEq
    omega
  · intro hint hrep
    have hagg := inv.repAgg hrep
    have hcl := (inv.aggDone hagg).1
    have hbuf := (inv.aggDone hagg).2
    have hex := inv.closedExited hcl
    have hbusy : countBusy s.workers = 0 := countBusy_exited _ hex
    have hprod : s.producer ≠ ProducerPC.incCount := by
      intro hp
      have hN := inv.incConc hp
      have hlen := inv.workersLen
      cases hw : s.workers with
      | nil => rw [hw] at hlen; simp at hlen; omega
      | cons w ws =>
        have hmem : w ∈ s.workers := by
          rw [hw]; exact List.mem_cons_self w ws
        have hwex := hex w hmem
        have hj := inv.exitedJobs hint w hmem hwex
        have h2 := (inv.jobsProd hj).1
        rw [hp] at h2
        simp at h2
    have hsc := inv.sentCount
    rw [if_neg hprod] at hsc
    have h1 := inv.succLe
    have h2 := inv.pushedEq
    rw [hbuf] at h2
    simp at h2
    have h3 := inv.sentEq
    omega

/-- Witness for C6 (amended) at the initial state of a continuous run. -/
theorem c6_success_bounded_witness :
    (initState ⟨1, -1⟩).successCount ≤ ((initState ⟨1, -1⟩).tokensSent : Int) ∧
    (initState ⟨1, -1⟩).resultsAggregated ≤ (initState ⟨1, -1⟩).tokensSent :=
  ⟨(c6_success_bounded ⟨1, -1⟩ (initState ⟨1, -1⟩)
      Relation.ReflTransGen.refl).1,
   (c6_success_bounded ⟨1, -1⟩ (initState ⟨1, -1⟩)
      Relation.ReflTransGen.refl).2.1⟩

/-! ## Claim C4 -/

/-- C4: in every run with `concurrency ≥ 1` and finite limit
`queries ≥ 0` in which no interrupt occurs, the Reporting state has
exactly `queries` results pushed on the result stream, exactly `queries`
results aggregated, and `finalQueryCount = queries`. -/
theorem c4_bounded_run_exact (c : RunConfig) (s : EngineState)
    (hN : 1 ≤ c.concurrency) (hL : 0 ≤ c.queries)
    (h : Reachable c s) (hint : s.interrupted = false)
    (hrep : s.main = MainPC.reporting) :
    (s.resultsPushed : Int) = c.queries ∧
    (s.resultsAggregated : Int) = c.queries ∧
    s.queryCount = c.queries := by
  have inv := inv_reachable h
  have hagg := inv.repAgg hrep
  have hcl := (inv.aggDone hagg).1
  have hbuf := (inv.aggDone hagg).2
  have hex := inv.closedExited hcl
  have hbusy : countBusy s.workers = 0 := countBusy_exited _ hex
  have hlen := inv.workersLen
  cases hw : s.workers with
  | nil => rw [hw] at hlen; simp at hlen; omega
  | cons w ws =>
    have hmem : w ∈ s.workers := by
      rw [hw]; exact List.mem_cons_self w ws
    have hwex := hex w hmem
    have hj := inv.exitedJobs hint w hmem hwex
    have hprod := (inv.jobsProd hj).1
    have hcont := (inv.jobsProd hj).2
    have hq : c.queries ≤ s.queryCount := by
      simp [producerContinue] at hcont
      omega
    have hqle := inv.qcLe hL
    have hqc : s.queryCount = c.queries := le_antisymm hqle hq
    have hsc := inv.sentCount
    have hprodne : s.producer ≠ ProducerPC.incCount := by
      rw [hprod]; simp
    rw [if_neg hprodne] at hsc
    have h2 := inv.pushedEq
    rw [hbuf] at h2
    simp at h2
    have h3 := inv.sentEq
    refine ⟨by omega, by omega, hqc⟩

/-- Helper for the C4 witness: a full uninterrupted run with
`queries = 0, concurrency = 1` reaches the Reporting state
`c4RepState`. -/
theorem c4_trace : Reachable ⟨1, 0⟩ c4RepState := by
  have h0 : Reaches ⟨1, 0⟩ (initState ⟨1, 0⟩) (initState ⟨1, 0⟩) :=
    Relation.ReflTransGen.refl
  have h1 := Relation.ReflTransGen.tail h0 (Step.prodClose _ rfl (by decide))
  have h2 := Relation.ReflTransGen.tail h1
    (Step.workerClosed _ 0 rfl (by decide))
  have h3 := Relation.ReflTransGen.tail h2
    (Step.closeResults _ (by decide) rfl)
  have h4 := Relation.ReflTransGen.tail h3 (Step.aggFinish _ rfl rfl rfl)
  have h5 := Relation.ReflTransGen.tail h4 (Step.mainDone _ rfl rfl)
  have h6 := Relation.ReflTransGen.tail h5 (Step.mainReport _ rfl rfl)
  exact h6

/-- Witness for C4 at the completed run `queries = 0, concurrency = 1`. -/
theorem c4_bounded_run_exact_witness :
    (c4RepState.resultsPushed : Int) = 0 ∧
    (c4RepState.resultsAggregated : Int) = 0 ∧
    c4RepState.queryCount = 0 :=
  c4_bounded_run_exact ⟨1, 0⟩ c4RepState (by decide) (by decide)
    c4_trace rfl rfl

/-! ## Claim C3 -/

/-- Helper for C3: once the run `queries = -1, concurrency = 1` is in the
stuck configuration (producer committed to the send, sole worker exited
through cancellation), no step can ever move the producer again. -/
theorem c3_stuck_step (t u : EngineState) (st : Step ⟨1, -1⟩ t u)
    (hp : t.producer = ProducerPC.sending)
    (hw : t.workers = [WorkerPC.exited]) :
    u.producer = ProducerPC.sending ∧ u.workers = [WorkerPC.exited] := by
  cases st with
  | prodSelectDefault h1 h2 h3 => rw [hp] at h1; simp at h1
  | prodSelectDone h1 h2 h3 => rw [hp] at h1; simp at h1
  | prodClose h1 h2 => rw [hp] at h1; simp at h1
  | prodInc h1 => rw [hp] at h1; simp at h1
  | sendRecv i h1 h2 => rw [hw] at h2; cases i <;> simp [List.get?] at h2
  | workerCancel i h1 h2 => rw [hw] at h2; cases i <;> simp [List.get?] at h2
  | workerClosed i h1 h2 => rw [hw] at h2; cases i <;> simp [List.get?] at h2
  | workerQuery i r h2 => rw [hw] at h2; cases i <;> simp [List.get?] at h2
  | workerPush i r h2 hcl hlen =>
    rw [hw] at h2; cases i <;> simp [List.get?] at h2
  | workerPushClosed i r h2 hcl =>
    rw [hw] at h2; cases i <;> simp [List.get?] at h2
  | closeResults hall hcl => exact ⟨hp, hw⟩
  | aggTake r rest ha hb => exact ⟨hp, hw⟩
  | aggFinish ha hcl hb => exact ⟨hp, hw⟩
  | interrupt hi => exact ⟨hp, hw⟩
  | mainSig hm hs => exact ⟨hp, hw⟩
  | mainDone hm ha => exact ⟨hp, hw⟩
  | mainReport hm ha => exact ⟨hp, hw⟩

/-- Helper for C3: the stuck configuration is reachable. -/
theorem c3_stuck_reach : Reachable ⟨1, -1⟩ c3StuckState := by
  have h0 : Reaches ⟨1, -1⟩ (initState ⟨1, -1⟩) (initState ⟨1, -1⟩) :=
    Relation.ReflTransGen.refl
  have h1 := Relation.ReflTransGen.tail h0
    (Step.prodSelectDefault _ rfl (by decide) rfl)
  have h2 := Relation.ReflTransGen.tail h1 (Step.interrupt _ rfl)
  have h3 := Relation.ReflTransGen.tail h2 (Step.mainSig _ rfl rfl)
  have h4 := Relation.ReflTransGen.tail h3
    (Step.workerCancel _ 0 rfl (by decide))
  exact h4

/-- C3: the claim states that after cancellation no pending or subsequent
push of a work token ever blocks indefinitely.  The code violates this for
a pending push: the run `queries = -1, concurrency = 1` reaches a state in
which cancellation has fired, every worker has exited, and the producer is
committed to the blocking send `jobs <- 1` (the send in the `default` branch of the select is not raced against `ctx.Done()`, main.go line 176); from
that state every reachable state still has the producer blocked on the
send — the push blocks forever. -/
theorem c3_pending_push_blocks_forever :
    Reachable ⟨1, -1⟩ c3StuckState ∧
    c3StuckState.cancelled = true ∧
    (∀ w ∈ c3StuckState.workers, w = WorkerPC.exited) ∧
    (∀ u, Reaches ⟨1, -1⟩ c3StuckState u →
      u.producer = ProducerPC.sending) := by
  refine ⟨c3_stuck_reach, rfl, by decide, ?_⟩
  intro u h
  unfold Reaches at h
  suffices hs : u.producer = ProducerPC.sending ∧
      u.workers = [WorkerPC.exited] from hs.1
  induction h with
  | refl => exact ⟨rfl, rfl⟩
  | tail h1 h2 ih => exact c3_stuck_step _ _ h2 ih.1 ih.2

/-- Witness for C3: the stuckness statement applied at the stuck state
itself. -/
theorem c3_pending_push_blocks_forever_witness :
    c3StuckState.producer = ProducerPC.sending :=
  c3_pending_push_blocks_forever.2.2.2 c3StuckState
    Relation.ReflTransGen.refl

/-! ## Claim C10 -/

/-- Helper for C10: with `concurrency = 0` no worker exists, so no token
is ever handed over, nothing is pushed or aggregated, and both shared
counters stay zero, in every reachable state. -/
theorem zero_conc_inv (q : Int) (s : EngineState)
    (h : Reachable ⟨0, q⟩ s) :
    s.workers = [] ∧ s.producer ≠ ProducerPC.incCount ∧ s.resultsBuf = [] ∧
    s.tokensSent = 0 ∧ s.resultsPushed = 0 ∧ s.resultsAggregated = 0 ∧
    s.queryCount = 0 ∧ s.successCount = 0 := by
  unfold Reachable Reaches at h
  induction h with
  | refl => exact ⟨rfl, by simp [initState], rfl, rfl, rfl, rfl, rfl, rfl⟩
  | tail h1 h2 ih =>
    obtain ⟨hw, hpr, hb, ht, hpu, hag, hqc, hsc⟩ := ih
    cases h2 with
    | prodSelectDefault hp hc hx => exact ⟨hw, by simp, hb, ht, hpu, hag, hqc, hsc⟩
    | prodSelectDone hp hc hx => exact ⟨hw, by simp, hb, ht, hpu, hag, hqc, hsc⟩
    | prodClose hp hc => exact ⟨hw, by simp, hb, ht, hpu, hag, hqc, hsc⟩
    | sendRecv i hp hw2 => rw [hw] at hw2; simp [List.get?] at hw2
    | prodInc hp => exact absurd hp hpr
    | workerCancel i hx hw2 => rw [hw] at hw2; simp [List.get?] at hw2
    | workerClosed i hj hw2 => rw [hw] at hw2; simp [List.get?] at hw2
    | workerQuery i r hw2 => rw [hw] at hw2; simp [List.get?] at hw2
    | workerPush i r hw2 hcl hlen => rw [hw] at hw2; simp [List.get?] at hw2
    | workerPushClosed i r hw2 hcl => rw [hw] at hw2; simp [List.get?] at hw2
    | closeResults hall hcl => exact ⟨hw, hpr, hb, ht, hpu, hag, hqc, hsc⟩
    | aggTake r rest ha hbuf => rw [hb] at hbuf; simp at hbuf
    | aggFinish ha hcl hbuf => exact ⟨hw, hpr, hb, ht, hpu, hag, hqc, hsc⟩
    | interrupt hi => exact ⟨hw, hpr, hb, ht, hpu, hag, hqc, hsc⟩
    | mainSig hm hs => exact ⟨hw, hpr, hb, ht, hpu, hag, hqc, hsc⟩
    | mainDone hm ha => exact ⟨hw, hpr, hb, ht, hpu, hag, hqc, hsc⟩
    | mainReport hm ha => exact ⟨hw, hpr, hb, ht, hpu, hag, hqc, hsc⟩

/-- C10: with `concurrency = 0`, for every query limit, no work token is
ever consumed and no result is ever produced (all ghost counters and both
shared counters stay zero in every reachable state); the result stream can
be closed directly from the initial state (`wg.Wait()` of an empty pool is
immediate); and a Reporting state with the aggregation-done signal fired,
zero results aggregated and `finalQueryCount = 0` is reached. -/
theorem c10_zero_concurrency (q : Int) :
    (∀ s, Reachable ⟨0, q⟩ s →
      s.tokensSent = 0 ∧ s.resultsPushed = 0 ∧ s.resultsAggregated = 0 ∧
      s.queryCount = 0 ∧ s.successCount = 0) ∧
    Step ⟨0, q⟩ (initState ⟨0, q⟩)
      { initState ⟨0, q⟩ with resultsClosed := true } ∧
    (∃ s, Reachable ⟨0, q⟩ s ∧ s.main = MainPC.reporting ∧
      s.agg = AggPC.finished ∧ s.queryCount = 0 ∧ s.successCount = 0 ∧
      s.resultsAggregated = 0) := by
  refine ⟨?_, ?_, ?_⟩
  · intro s h
    obtain ⟨_, _, _, ht, hpu, hag, hqc, hsc⟩ := zero_conc_inv q s h
    exact ⟨ht, hpu, hag, hqc, hsc⟩
  · exact Step.closeResults _ (by simp [initState]) rfl
  · have h0 : Reaches ⟨0, q⟩ (initState ⟨0, q⟩) (initState ⟨0, q⟩) :=
      Relation.ReflTransGen.refl
    have h1 := Relation.ReflTransGen.tail h0
      (Step.closeResults _ (by simp [initState]) rfl)
    have h2 := Relation.ReflTransGen.tail h1 (Step.aggFinish _ rfl rfl rfl)
    have h3 := Relation.ReflTransGen.tail h2 (Step.mainDone _ rfl rfl)
    have h4 := Relation.ReflTransGen.tail h3 (Step.mainReport _ rfl rfl)
    exact ⟨_, h4, rfl, rfl, rfl, rfl, rfl⟩

/-- Witness for C10 at `queries = 7` and the initial state. -/
theorem c10_zero_concurrency_witness :
    (initState ⟨0, 7⟩).tokensSent = 0 ∧
    (initState ⟨0, 7⟩).resultsPushed = 0 ∧
    (initState ⟨0, 7⟩).resultsAggregated = 0 ∧
    (initState ⟨0, 7⟩).queryCount = 0 ∧
    (initState ⟨0, 7⟩).successCount = 0 :=
  (c10_zero_concurrency 7).1 (initState ⟨0, 7⟩) Relation.ReflTransGen.refl

end DNSPerf
